import Mathlib

/-!
Shallow embedding of the Telegram file-distribution bot (src/bot.py) and
verification of its specification claims.

Modelling conventions:
- Database tables are Lean lists in insertion order; SQL INSERT appends,
  SELECT filters in order, DELETE filters rows out.
- Python strings are Lean Strings; Python slicing and stripping are modelled
  on the underlying character list.  Digits are modelled as ASCII digits.
- The Telegram transport is abstracted: membership checks are driven by an
  oracle giving the outcome of each attempt, and outbound sends are recorded
  as an event trace.
- Python integers are Int, sizes are Nat, machine overflow is irrelevant here.
-/

namespace BotCore

/-- Python slicing s[:n], character based. -/
def strTake (s : String) (n : Nat) : String := String.mk (s.data.take n)

/-- Python slicing s[n:], character based. -/
def strDrop (s : String) (n : Nat) : String := String.mk (s.data.drop n)

/-- Python str.strip(): remove leading and trailing whitespace. -/
def pyStrip (s : String) : String :=
  String.mk (((s.data.dropWhile Char.isWhitespace).reverse.dropWhile Char.isWhitespace).reverse)

/-- Python s.split(sep)[1] for a single-character separator, as used for
callback data of the form kind_payload: the segment between the first and
second underscore. -/
def part1 (s : String) : String :=
  String.mk (((s.data.dropWhile (fun c => c != '_')).drop 1).takeWhile (fun c => c != '_'))

/-! ## Membership gate (BotManager.check_channel_membership, bot.py 431-443) -/

/-- Outcome of one get_chat_member attempt: either a returned membership
status string, or a raised transport error. -/
inductive CheckResult where
  | status (s : String)
  | err
  deriving DecidableEq

/-- The status test from bot.py line 436: member.status in
[member, administrator, creator]. -/
def satisfyingStatus (s : String) : Bool :=
  s == "member" || s == "administrator" || s == "creator"

/-- One loop iteration body: an attempt succeeds when it returns a
satisfying status; a raised error never succeeds. -/
def attemptOk : CheckResult → Bool
  | .status s => satisfyingStatus s
  | .err => false

/-- The retry loop of check_channel_membership: starting at attempt index i
with the given remaining attempt budget, return True on the first attempt
whose status satisfies, otherwise fall through to the next attempt. -/
def membershipLoop (attempts : Nat → CheckResult) : Nat → Nat → Bool
  | _, 0 => false
  | i, fuel + 1 => if attemptOk (attempts i) then true else membershipLoop attempts (i + 1) fuel

/-- check_channel_membership: up to 3 attempts, False when all are exhausted.
The attempts oracle gives the transport outcome of each attempt for this
channel and user. -/
def check_channel_membership (attempts : Nat → CheckResult) : Bool :=
  membershipLoop attempts 0 3

/-- Specification-side predicate (from the spec text, for comparison with
check_channel_membership): some attempt among the first 3 reports a
membership status of member, administrator or creator. -/
def specMemberWithin3 (a : Nat → CheckResult) : Prop :=
  ∃ j, j < 3 ∧ ∃ st, a j = CheckResult.status st ∧
    (st = "member" ∨ st = "administrator" ∨ st = "creator")

/-! ## Persistent data model (tables of Database, bot.py 84-155) -/

/-- One row of the channels table. -/
structure Channel where
  channel_id : String
  channel_name : String
  invite_link : String
  deriving DecidableEq

/-- One row of the categories table (timestamps omitted). -/
structure CategoryRow where
  id : String
  name : String
  created_by : Int
  deriving DecidableEq

/-- One row of the files table (serial id and timestamp omitted; list
position plays the role of the serial id). -/
structure FileRow where
  category_id : String
  file_id : String
  file_name : String
  file_size : Nat
  file_type : String
  caption : String
  deriving DecidableEq

/-- One row of the post_messages table. -/
structure PostMessageRow where
  category_id : String
  message_type : String
  content : String
  caption : String
  deriving DecidableEq

/-- One row of the admins table. -/
structure AdminRow where
  user_id : Int
  is_super : Bool
  added_by : Int
  deriving DecidableEq

/-- The projection of a file row returned by get_category
(SELECT file_id, file_type, caption). -/
structure FileRec where
  file_id : String
  file_type : String
  caption : String
  deriving DecidableEq

/-- The post-message projection returned by get_category
(SELECT message_type, content, caption). -/
structure PostMessage where
  message_type : String
  content : String
  caption : String
  deriving DecidableEq

/-- The dictionary returned by Database.get_category. -/
structure Category where
  name : String
  files : List FileRec
  post_message : Option PostMessage
  deriving DecidableEq

/-- The persistent store as seen by the claims under verification. -/
structure DB where
  categories : List CategoryRow
  files : List FileRow
  post_messages : List PostMessageRow
  deriving DecidableEq

/-- Database.get_category (bot.py 174-197): None when the category row is
missing, otherwise the name, the file rows of the category in table order,
and the optional post message. -/
def get_category (db : DB) (cid : String) : Option Category :=
  match db.categories.find? (fun c => c.id == cid) with
  | none => none
  | some c =>
      some { name := c.name
           , files := (db.files.filter (fun f => f.category_id == cid)).map
               (fun f => { file_id := f.file_id, file_type := f.file_type, caption := f.caption })
           , post_message := (db.post_messages.find? (fun p => p.category_id == cid)).map
               (fun p => { message_type := p.message_type, content := p.content, caption := p.caption }) }

/-! ## File insertion (Database.add_file 208-232, Database.add_files 234-260) -/

/-- A file-info dictionary accumulated during an upload session
(extract_file_info, bot.py 400-429). -/
structure FileInfo where
  file_id : String
  file_name : String
  file_size : Nat
  file_type : String
  caption : String
  deriving DecidableEq

/-- The row inserted for a file-info under a category. -/
def toRow (cid : String) (f : FileInfo) : FileRow :=
  { category_id := cid, file_id := f.file_id, file_name := f.file_name
  , file_size := f.file_size, file_type := f.file_type, caption := f.caption }

/-- The duplicate check SELECT 1 FROM files WHERE file_id = x. -/
def fileExists (files : List FileRow) (fid : String) : Bool :=
  files.any (fun r => r.file_id == fid)

/-- Database.add_file: skip when the external file reference is already
present, otherwise insert; returns whether a row was inserted. -/
def add_file (files : List FileRow) (cid : String) (f : FileInfo) : List FileRow × Bool :=
  if fileExists files f.file_id then (files, false)
  else (files ++ [toRow cid f], true)

/-- Database.add_files: insert each batch item in order with the same
per-item duplicate check, counting only the rows actually inserted. -/
def add_files (files : List FileRow) (cid : String) (batch : List FileInfo) : List FileRow × Nat :=
  match batch with
  | [] => (files, 0)
  | f :: rest =>
      let step := add_file files cid f
      let recTail := add_files step.1 cid rest
      (recTail.1, recTail.2 + (if step.2 then 1 else 0))

/-- The transient upload batch held in context.user_data (upload_command,
bot.py 707-711). -/
structure Upload where
  category_id : String
  files : List FileInfo
  deriving DecidableEq

/-- finish_upload (bot.py 736-756): with no active upload or an empty batch
nothing is persisted and no count is reported; otherwise the batch is
persisted through add_files and the inserted count is reported. -/
def finish_upload (files : List FileRow) (up : Option Upload) : List FileRow × Option Nat :=
  match up with
  | none => (files, none)
  | some u =>
      if u.files.isEmpty then (files, none)
      else
        let r := add_files files u.category_id u.files
        (r.1, some r.2)

/-! ## Admin management (Database.add_admin 323-331, remove_admin 333-339,
BotManager.init 379-386) -/

/-- Database.add_admin: INSERT .. ON CONFLICT (user_id) DO UPDATE SET
is_super = EXCLUDED.is_super.  On conflict only the is_super column is
overwritten with the new value; added_by is kept. -/
def add_admin (db : List AdminRow) (uid : Int) (sup : Bool) (b : Int) : List AdminRow :=
  if db.any (fun r => r.user_id == uid) then
    db.map (fun r => if r.user_id == uid then { r with is_super := sup } else r)
  else db ++ [{ user_id := uid, is_super := sup, added_by := b }]

/-- Database.remove_admin: DELETE FROM admins WHERE user_id = x AND
is_super = FALSE. -/
def remove_admin (db : List AdminRow) (uid : Int) : List AdminRow :=
  db.filter (fun r => !(r.user_id == uid && r.is_super == false))

/-- The seed-admin loop of BotManager.init: add_admin(id, True, 0) for each
configured admin id. -/
def seed_admins (db : List AdminRow) (ids : List Int) : List AdminRow :=
  ids.foldl (fun d i => add_admin d i true 0) db

/-! ## Delivery pipeline (send_category_files 604-642,
BotManager.send_post_message 445-483) -/

/-- Observable effects of the delivery pipeline.  pause n records a sleep of
n tenths of a second; sendFile, sendText and sendMedia record an invocation
of an outbound send capability with the arguments actually passed. -/
inductive Event where
  | notice
  | header
  | sendFile (ftype fid caption : String)
  | pause (tenths : Nat)
  | sendText (content : String)
  | sendMedia (mtype content caption : String)
  | pendingPrompt (chs : List Channel)
  deriving DecidableEq

/-- The send-function dispatch table of send_category_files has entries for
exactly these type tags; .get returns None for any other tag. -/
def knownType (t : String) : Bool :=
  t == "document" || t == "photo" || t == "video" || t == "audio"

/-- BotManager.send_post_message: dispatch on the message type; text sends
the content with no caption, the three media kinds pass the stored caption
through unchanged; a send failure is logged, not escalated, so the
invocation trace is the same either way. -/
def send_post_message (pm : PostMessage) : List Event :=
  if pm.message_type == "text" then [Event.sendText pm.content]
  else if pm.message_type == "photo" || pm.message_type == "video"
      || pm.message_type == "document" then
    [Event.sendMedia pm.message_type pm.content pm.caption]
  else []

/-- The per-file loop of send_category_files.  fails i tells whether the
send call of the i-th iteration raises; the caption passed to the send
capability is sliced to 1024 characters either way; a failing item is
followed by the longer 2 second pause and the loop continues. -/
def deliverLoop (fails : Nat → Bool) : Nat → List FileRec → List Event
  | _, [] => []
  | i, f :: rest =>
      if knownType f.file_type then
        if fails i then
          Event.sendFile f.file_type f.file_id (strTake f.caption 1024)
            :: Event.pause 20 :: deliverLoop fails (i + 1) rest
        else
          Event.sendFile f.file_type f.file_id (strTake f.caption 1024)
            :: Event.pause 5 :: deliverLoop fails (i + 1) rest
      else
        Event.pause 5 :: deliverLoop fails (i + 1) rest

/-- send_category_files: missing category or empty file list produce only
the not-found notice; otherwise the header message, the per-file loop, and
then the configured post message, if any. -/
def send_category_files (fails : Nat → Bool) (cat : Option Category) : List Event :=
  match cat with
  | none => [Event.notice]
  | some c =>
      if c.files.isEmpty then [Event.notice]
      else
        Event.header ::
          (deliverLoop fails 0 c.files ++
            (match c.post_message with
             | some pm => send_post_message pm
             | none => []))

/-- The non-admin path of handle_category (bot.py 538-573): with no
configured channels the files are sent at once; otherwise the channels whose
membership check fails are collected in order, the files are sent when none
failed, and otherwise the join prompt listing the failing channels is shown. -/
def handle_category (channels : List Channel) (attempts : String → Nat → CheckResult)
    (fails : Nat → Bool) (cat : Option Category) : List Event :=
  if channels.isEmpty then send_category_files fails cat
  else
    let nonJoined := channels.filter
      (fun ch => !(check_channel_membership (attempts ch.channel_id)))
    if nonJoined.isEmpty then send_category_files fails cat
    else [Event.pendingPrompt nonJoined]

/-- Event classifier: an invocation of a per-file send capability. -/
def isFileSend : Event → Bool
  | .sendFile _ _ _ => true
  | _ => false

/-- Event classifier: an invocation of the post-message send. -/
def isPostSend : Event → Bool
  | .sendText _ => true
  | .sendMedia _ _ _ => true
  | _ => false

/-! ## Conversation session state (user_data and handler return values) -/

/-- The transient post-message draft held in user_data (setup_post_message
919-915, handle_post_message_type 931-960).  ptype models the dictionary key
named type. -/
structure PostDraft where
  category_id : String
  ptype : Option String
  deriving DecidableEq

/-- The transient keys of context.user_data used by the conversation flows. -/
structure UserData where
  upload : Option Upload
  channel_id : Option String
  channel_name : Option String
  post_message : Option PostDraft
  deriving DecidableEq

def emptyUserData : UserData :=
  { upload := none, channel_id := none, channel_name := none, post_message := none }

/-- The conversation state constants of bot.py line 67-71 (range(8)) and the
library constant ConversationHandler.END, which terminates the conversation
and returns the session to the idle state. -/
def UPLOADING : Int := 0

def WAITING_CHANNEL_INFO : Int := 1

def AWAITING_CATEGORY_NAME : Int := 2

def CATEGORY_MANAGEMENT : Int := 3

def TIMER_SETTINGS : Int := 4

def POST_MESSAGE_SETUP : Int := 5

def AWAITING_POST_MESSAGE : Int := 6

def AWAITING_POST_CAPTION : Int := 7

def CONV_END : Int := -1

/-- The body of the cancel fallback handler (bot.py 1015-1024): pop every
transient key and end the conversation.  Whether a /cancel command reaches
this handler depends on the per-state dispatch: ConversationHandler
consults the active state handlers before the fallbacks, and the states
WAITING_CHANNEL_INFO (bot.py 1279-1283) and AWAITING_POST_MESSAGE (bot.py
1294) register MessageHandler over filters.TEXT, which matches command
messages too (the repo excludes commands only in the category-name state,
line 1241, with filters.TEXT and not filters.COMMAND), so in those two
states a text /cancel update is consumed by the state handler and this
body never runs. -/
def cancel (ud : UserData) : UserData × Int :=
  ({ ud with upload := none, channel_id := none, channel_name := none, post_message := none },
   CONV_END)

/-- Entering the upload flow for a chosen category (upload_command 707-718
and the add_ branch of button_handler 1081-1091): a fresh empty batch. -/
def start_upload (ud : UserData) (cid : String) : UserData × Int :=
  ({ ud with upload := some { category_id := cid, files := [] } }, UPLOADING)

/-- Entering the post-message flow (setup_post_message 909-929): a fresh
draft holding only the category id. -/
def setup_post_message (ud : UserData) (cid : String) : UserData × Int :=
  ({ ud with post_message := some { category_id := cid, ptype := none } }, POST_MESSAGE_SETUP)

/-! ## Channel id validation (handle_channel_id 810-829) -/

/-- The regex of bot.py line 815, anchored -100 followed by one or more
digits: the first four characters are -100, and at least one character
follows, all digits.  The handler strips its input first, so the trailing
newline subtlety of the dollar anchor cannot arise. -/
def matchChannelIdPattern (s : String) : Bool :=
  s.data.take 4 == ['-', '1', '0', '0']
    && s.data.drop 4 != []
    && (s.data.drop 4).all Char.isDigit

/-- Specification-side reading of the pattern: the string is -100 followed
by one or more digits. -/
def specChannelIdMatches (s : String) : Prop :=
  ∃ ds : List Char, ds ≠ [] ∧ (∀ c ∈ ds, c.isDigit = true) ∧
    s.data = '-' :: '1' :: '0' :: '0' :: ds

/-- The two possible replies of handle_channel_id. -/
inductive ChannelIdReply where
  | askName
  | invalidFormat
  deriving DecidableEq

/-- handle_channel_id: strip the text; an invalid id re-enters the same
state with a validation message and untouched user_data; a valid id is
stored and the name is asked for, within the same conversation state. -/
def handle_channel_id (ud : UserData) (text : String) : UserData × Int × ChannelIdReply :=
  let channel_id := pyStrip text
  if matchChannelIdPattern channel_id then
    ({ ud with channel_id := some channel_id }, WAITING_CHANNEL_INFO, ChannelIdReply.askName)
  else
    (ud, WAITING_CHANNEL_INFO, ChannelIdReply.invalidFormat)

/-! ## Post-message kind selection (handle_post_message_type 931-960,
delete_post_message 363-369, button_handler 1104-1107) -/

/-- Database.delete_post_message. -/
def delete_post_message (db : List PostMessageRow) (cid : String) : List PostMessageRow :=
  db.filter (fun r => !(r.category_id == cid))

/-- handle_post_message_type: the draft type key is set to the second
underscore segment of the callback data first; the delete branch compares
the whole callback data against the bare string delpost, deletes and ends
when equal; every other callback, including the actual delete button data of
the form delpost_cid, falls to the prompt branches returning
AWAITING_POST_MESSAGE with the store untouched.  (In the source a missing
draft would raise; in the flow under verification the draft was set by
setup_post_message.) -/
def handle_post_message_type (ud : UserData) (pdb : List PostMessageRow) (action : String) :
    UserData × List PostMessageRow × Int :=
  let setType := fun (d : PostDraft) => { d with ptype := some (part1 action) }
  let ud1 := { ud with post_message := ud.post_message.map setType }
  if action == "delpost" then
    (ud1, delete_post_message pdb (part1 action), CONV_END)
  else
    (ud1, pdb, AWAITING_POST_MESSAGE)

/-- The delpost_ branch of button_handler (reachable only outside an active
post-message conversation): delete the post message of data[8:]. -/
def button_delpost (pdb : List PostMessageRow) (data : String) : List PostMessageRow :=
  delete_post_message pdb (strDrop data 8)

/-- Database.set_post_message (bot.py 350-361): INSERT with ON CONFLICT
(category_id) DO UPDATE overwriting message_type, content and caption.  A
NULL caption is modelled as the empty string. -/
def set_post_message (pdb : List PostMessageRow) (cid mtype content caption : String) :
    List PostMessageRow :=
  if pdb.any (fun r => r.category_id == cid) then
    pdb.map (fun r => if r.category_id == cid then
      { category_id := r.category_id, message_type := mtype
      , content := content, caption := caption } else r)
  else
    pdb ++ [{ category_id := cid, message_type := mtype
            , content := content, caption := caption }]

/-- save_post_message (bot.py 962-1009) on a plain text update, the only
update kind relevant here.  With no draft, the error reply is sent and the
conversation ends.  With a text draft, the message text is persisted as the
post-message content, the draft is popped and the conversation ends.  With
a media draft, a text update carries no photo, video or document, so the
extraction raises, the error is reported, the draft is still popped and the
store is unchanged.  An unset draft type would raise before the error
handler, outside the try block, leaving state and data as they were. -/
def save_post_message (ud : UserData) (pdb : List PostMessageRow) (text : String) :
    UserData × List PostMessageRow × Int :=
  match ud.post_message with
  | none => (ud, pdb, CONV_END)
  | some d =>
      match d.ptype with
      | some t =>
          if t == "text" then
            ({ ud with post_message := none },
             set_post_message pdb d.category_id "text" text "", CONV_END)
          else
            ({ ud with post_message := none }, pdb, CONV_END)
      | none => (ud, pdb, AWAITING_POST_MESSAGE)

/-! ## Concrete instances used by witnesses and counterexamples -/

/-- A sample mandatory channel. -/
def chanNews : Channel :=
  { channel_id := "-100123", channel_name := "news", invite_link := "https://t.me/news" }

/-- A membership oracle whose first attempt raises and whose second attempt
reports member. -/
def attemptsRetry : String → Nat → CheckResult :=
  fun _ j => if j == 1 then CheckResult.status "member" else CheckResult.err

/-- A text post-message draft awaiting its content. -/
def udDraftCancel : UserData :=
  { emptyUserData with post_message := some { category_id := "a1b2c3d4", ptype := some "text" } }

/-- A 1025-character caption. -/
def longCaption : String := String.mk (List.replicate 1025 'a')

/-- A configured photo post message whose caption exceeds 1024 characters. -/
def pmLong : PostMessage :=
  { message_type := "photo", content := "photoref", caption := longCaption }

/-- A category holding one photo and the long-caption post message. -/
def catLong : Category :=
  { name := "movies"
  , files := [{ file_id := "f1", file_type := "photo", caption := "" }]
  , post_message := some pmLong }

/-- A one-category, one-file store. -/
def dbW : DB :=
  { categories := [{ id := "c1", name := "movies", created_by := 5 }]
  , files := [{ category_id := "c1", file_id := "f1", file_name := "a.mp4"
              , file_size := 10, file_type := "video", caption := "v" }]
  , post_messages := [] }

/-- The category dictionary get_category returns on dbW. -/
def catW : Category :=
  { name := "movies"
  , files := [{ file_id := "f1", file_type := "video", caption := "v" }]
  , post_message := none }


/-- Two batch items sharing the external reference f9. -/
def fDupA : FileInfo :=
  { file_id := "f9", file_name := "a", file_size := 1, file_type := "photo", caption := "" }

def fDupB : FileInfo :=
  { file_id := "f9", file_name := "b", file_size := 2, file_type := "photo", caption := "x" }

/-- The duplicate-reference upload batch. -/
def upDup : Upload := { category_id := "c1", files := [fDupA, fDupB] }

/-- A stored row with reference f1. -/
def rowV : FileRow :=
  { category_id := "c1", file_id := "f1", file_name := "a.mp4"
  , file_size := 10, file_type := "video", caption := "v" }

/-- A re-upload of reference f1 under different category and metadata. -/
def fNew : FileInfo :=
  { file_id := "f1", file_name := "other", file_size := 99
  , file_type := "photo", caption := "new" }

end BotCore

namespace BotCore

/-! ## Helper lemmas -/

theorem attemptOk_iff (r : CheckResult) :
    attemptOk r = true ↔ ∃ st, r = CheckResult.status st ∧
      (st = "member" ∨ st = "administrator" ∨ st = "creator") := by
  cases r with
  | status s =>
      simp only [attemptOk, satisfyingStatus]
      constructor
      · intro h
        refine ⟨s, rfl, ?_⟩
        rw [Bool.or_eq_true, Bool.or_eq_true, beq_iff_eq, beq_iff_eq, beq_iff_eq] at h
        tauto
      · rintro ⟨st, hst, h⟩
        cases hst
        rw [Bool.or_eq_true, Bool.or_eq_true, beq_iff_eq, beq_iff_eq, beq_iff_eq]
        tauto
  | err => simp [attemptOk]

theorem membershipLoop_iff (a : Nat → CheckResult) :
    ∀ fuel i, membershipLoop a i fuel = true ↔ ∃ j, j < fuel ∧ attemptOk (a (i + j)) = true := by
  intro fuel
  induction fuel with
  | zero => intro i; simp [membershipLoop]
  | succ n ih =>
      intro i
      simp only [membershipLoop]
      by_cases h : attemptOk (a i) = true
      · simp only [h, if_true, true_iff]
        exact ⟨0, Nat.succ_pos n, by simpa using h⟩
      · rw [if_neg h, ih (i + 1)]
        constructor
        · rintro ⟨j, hj, hok⟩
          exact ⟨j + 1, by omega, by simpa [Nat.add_comm, Nat.add_assoc, Nat.add_left_comm] using hok⟩
        · rintro ⟨j, hj, hok⟩
          match j with
          | 0 => exact absurd (by simpa using hok) h
          | j + 1 => exact ⟨j, by omega, by simpa [Nat.add_comm, Nat.add_assoc, Nat.add_left_comm] using hok⟩

theorem check_channel_membership_iff (a : Nat → CheckResult) :
    check_channel_membership a = true ↔ specMemberWithin3 a := by
  unfold check_channel_membership specMemberWithin3
  rw [membershipLoop_iff]
  constructor
  · rintro ⟨j, hj, hok⟩
    exact ⟨j, hj, (attemptOk_iff _).1 (by simpa using hok)⟩
  · rintro ⟨j, hj, st, hst, h⟩
    exact ⟨j, hj, by simpa using (attemptOk_iff (a j)).2 ⟨st, hst, h⟩⟩

theorem check_channel_membership_false_iff (a : Nat → CheckResult) :
    check_channel_membership a = false ↔ ¬ specMemberWithin3 a := by
  constructor
  · intro h hs
    have hc := (check_channel_membership_iff a).2 hs
    rw [h] at hc
    cases hc
  · intro hs
    cases h : check_channel_membership a
    · rfl
    · exact absurd ((check_channel_membership_iff a).1 h) hs

theorem matchChannelIdPattern_iff (s : String) :
    matchChannelIdPattern s = true ↔ specChannelIdMatches s := by
  unfold matchChannelIdPattern specChannelIdMatches
  constructor
  · intro h
    simp only [Bool.and_eq_true, beq_iff_eq, bne_iff_ne, ne_eq, List.all_eq_true] at h
    obtain ⟨⟨h1, h2⟩, h3⟩ := h
    refine ⟨s.data.drop 4, h2, fun c hc => by simpa using h3 c hc, ?_⟩
    have hs := List.take_append_drop 4 s.data
    rw [← hs, h1]
    rfl
  · rintro ⟨ds, hne, hdig, hs⟩
    simp only [hs, Bool.and_eq_true, beq_iff_eq, bne_iff_ne, ne_eq, List.all_eq_true]
    refine ⟨⟨rfl, by simpa using hne⟩, fun c hc => by simpa using hdig c (by simpa using hc)⟩

/-! ## Claim theorems -/

/-- C1: the membership gate grants access, sending the category files, iff
every configured channel reports a satisfying membership status (member,
administrator or creator) within 3 attempts, where an attempt raising a
transport error counts as a negative result; otherwise it shows the pending
prompt listing exactly the channels that did not satisfy; an empty channel
list grants immediately and the files are sent. -/
theorem claim1_membership_gate (channels : List Channel)
    (attempts : String → Nat → CheckResult) (fails : Nat → Bool) (cat : Option Category) :
    (∀ a, check_channel_membership a = true ↔ specMemberWithin3 a)
    ∧ ((∀ ch ∈ channels, specMemberWithin3 (attempts ch.channel_id)) →
        handle_category channels attempts fails cat = send_category_files fails cat)
    ∧ ((∃ ch ∈ channels, ¬ specMemberWithin3 (attempts ch.channel_id)) →
        ∃ L, handle_category channels attempts fails cat = [Event.pendingPrompt L]
          ∧ ∀ ch, (ch ∈ L ↔ ch ∈ channels ∧ ¬ specMemberWithin3 (attempts ch.channel_id)))
    ∧ (channels = [] → handle_category channels attempts fails cat = send_category_files fails cat) := by
  refine ⟨check_channel_membership_iff, ?_, ?_, ?_⟩
  · intro hall
    unfold handle_category
    by_cases he : channels.isEmpty
    · rw [if_pos he]
    · rw [if_neg he]
      have hfil : channels.filter
          (fun ch => !(check_channel_membership (attempts ch.channel_id))) = [] := by
        rw [List.filter_eq_nil_iff]
        intro ch hch
        simp only [Bool.not_eq_true']
        rw [check_channel_membership_false_iff]
        exact fun hno => hno (hall ch hch)
      rw [hfil]
      rfl
  · rintro ⟨ch, hch, hns⟩
    refine ⟨channels.filter (fun c => !(check_channel_membership (attempts c.channel_id))), ?_, ?_⟩
    · unfold handle_category
      have hne : channels.isEmpty = false := by
        cases channels with
        | nil => cases hch
        | cons a l => rfl
      rw [if_neg (by simp [hne])]
      have hmem : ch ∈ channels.filter
          (fun c => !(check_channel_membership (attempts c.channel_id))) := by
        rw [List.mem_filter]
        refine ⟨hch, ?_⟩
        show (!(check_channel_membership (attempts ch.channel_id))) = true
        rw [Bool.not_eq_true']
        exact (check_channel_membership_false_iff _).2 hns
      have hfe2 : (channels.filter
          (fun c => !(check_channel_membership (attempts c.channel_id)))).isEmpty = false := by
        cases hfe : channels.filter
            (fun c => !(check_channel_membership (attempts c.channel_id))) with
        | nil => rw [hfe] at hmem; cases hmem
        | cons a l => rfl
      rw [if_neg (by simp [hfe2])]
    · intro c
      rw [List.mem_filter]
      constructor
      · rintro ⟨hc, hb⟩
        refine ⟨hc, ?_⟩
        simp only [Bool.not_eq_true'] at hb
        exact (check_channel_membership_false_iff _).1 hb
      · rintro ⟨hc, hns2⟩
        refine ⟨hc, ?_⟩
        show (!(check_channel_membership (attempts c.channel_id))) = true
        rw [Bool.not_eq_true']
        exact (check_channel_membership_false_iff _).2 hns2
  · intro h
    subst h
    rfl

/-- Witness for C1: one channel whose first attempt errors and whose second
attempt reports member is granted, so the delivery call is reached. -/
theorem claim1_membership_gate_witness :
    handle_category [chanNews] attemptsRetry (fun _ => false) none
      = send_category_files (fun _ => false) none :=
  (claim1_membership_gate [chanNews] attemptsRetry (fun _ => false) none).2.1
    (by
      intro ch hch
      exact ⟨1, by omega, "member", rfl, Or.inl rfl⟩)

/-- C4: the registered cancel fallback body implements exactly the claimed
reset, but in the channel-registration and post-message-content states the
state handlers match plain text including commands and run first, so the
/cancel command never reaches it there: in WAITING_CHANNEL_INFO the command
is rejected as an invalid channel id, keeping every transient field and
re-entering the same state instead of going idle, and in
AWAITING_POST_MESSAGE with a text draft the command text is persisted as
the post-message content instead of being discarded. -/
theorem claim4_cancel_shadowed :
    (∀ ud : UserData, handle_channel_id ud "/cancel"
        = (ud, WAITING_CHANNEL_INFO, ChannelIdReply.invalidFormat))
    ∧ save_post_message udDraftCancel [] "/cancel"
        = ({ udDraftCancel with post_message := none },
           [{ category_id := "a1b2c3d4", message_type := "text"
            , content := "/cancel", caption := "" }],
           CONV_END)
    ∧ (∀ ud : UserData, cancel ud = (emptyUserData, CONV_END)) := by
  refine ⟨?_, by decide, fun ud => rfl⟩
  intro ud
  have h1 : pyStrip "/cancel" = "/cancel" := by decide
  have h2 : matchChannelIdPattern "/cancel" = false := by decide
  simp only [handle_channel_id, h1, h2, Bool.false_eq_true, if_false]

/-- C6: channel-id validation accepts exactly the strings of the form -100
followed by one or more digits; the id -1001234567890 is accepted, stored,
and the flow advances to asking the channel name, while 1001234567890 and
-abc are rejected with a validation message, leaving user_data untouched and
re-entering the same conversation state. -/
theorem claim6_channel_id_validation (ud : UserData) :
    (∀ s, matchChannelIdPattern s = true ↔ specChannelIdMatches s)
    ∧ handle_channel_id ud "-1001234567890"
        = ({ ud with channel_id := some "-1001234567890" }, WAITING_CHANNEL_INFO,
            ChannelIdReply.askName)
    ∧ handle_channel_id ud "1001234567890"
        = (ud, WAITING_CHANNEL_INFO, ChannelIdReply.invalidFormat)
    ∧ handle_channel_id ud "-abc" = (ud, WAITING_CHANNEL_INFO, ChannelIdReply.invalidFormat) := by
  refine ⟨matchChannelIdPattern_iff, ?_, ?_, ?_⟩
  · have h1 : pyStrip "-1001234567890" = "-1001234567890" := by decide
    have h2 : matchChannelIdPattern "-1001234567890" = true := by decide
    simp only [handle_channel_id, h1, h2, if_true]
  · have h1 : pyStrip "1001234567890" = "1001234567890" := by decide
    have h2 : matchChannelIdPattern "1001234567890" = false := by decide
    simp only [handle_channel_id, h1, h2, Bool.false_eq_true, if_false]
  · have h1 : pyStrip "-abc" = "-abc" := by decide
    have h2 : matchChannelIdPattern "-abc" = false := by decide
    simp only [handle_channel_id, h1, h2, Bool.false_eq_true, if_false]

end BotCore

namespace BotCore

theorem strTake_length_le (s : String) (n : Nat) : (strTake s n).length ≤ n := by
  show (s.data.take n).length ≤ n
  rw [List.length_take]
  omega

theorem deliverLoop_filter_fileSend (fails : Nat → Bool) :
    ∀ (files : List FileRec) (i : Nat), (∀ f ∈ files, knownType f.file_type = true) →
      (deliverLoop fails i files).filter isFileSend
        = files.map (fun f => Event.sendFile f.file_type f.file_id (strTake f.caption 1024)) := by
  intro files
  induction files with
  | nil => intro i _; rfl
  | cons f rest ih =>
      intro i hk
      have hf : knownType f.file_type = true := hk f (by simp)
      have hr : ∀ g ∈ rest, knownType g.file_type = true := fun g hg => hk g (by simp [hg])
      simp only [deliverLoop, hf, if_true]
      by_cases hfi : fails i
      · simp [hfi, List.filter_cons, isFileSend, ih (i + 1) hr]
      · simp [hfi, List.filter_cons, isFileSend, ih (i + 1) hr]

theorem deliverLoop_no_post (fails : Nat → Bool) :
    ∀ (files : List FileRec) (i : Nat) (e : Event),
      e ∈ deliverLoop fails i files → isPostSend e = false := by
  intro files
  induction files with
  | nil => intro i e he; cases he
  | cons f rest ih =>
      intro i e he
      simp only [deliverLoop] at he
      by_cases hf : knownType f.file_type = true
      · rw [if_pos hf] at he
        by_cases hfi : fails i
        · rw [if_pos hfi] at he
          simp only [List.mem_cons] at he
          rcases he with he | he | he
          · rw [he]; rfl
          · rw [he]; rfl
          · exact ih (i + 1) e he
        · rw [if_neg hfi] at he
          simp only [List.mem_cons] at he
          rcases he with he | he | he
          · rw [he]; rfl
          · rw [he]; rfl
          · exact ih (i + 1) e he
      · rw [if_neg hf] at he
        simp only [List.mem_cons] at he
        rcases he with he | he
        · rw [he]; rfl
        · exact ih (i + 1) e he

theorem deliverLoop_caption (fails : Nat → Bool) :
    ∀ (files : List FileRec) (i : Nat) (t fid cap : String),
      Event.sendFile t fid cap ∈ deliverLoop fails i files →
        ∃ f ∈ files, cap = strTake f.caption 1024 := by
  intro files
  induction files with
  | nil => intro i t fid cap he; cases he
  | cons f rest ih =>
      intro i t fid cap he
      simp only [deliverLoop] at he
      by_cases hf : knownType f.file_type = true
      · rw [if_pos hf] at he
        by_cases hfi : fails i
        · rw [if_pos hfi] at he
          simp only [List.mem_cons] at he
          rcases he with he | he | he
          · exact ⟨f, by simp, by cases he; rfl⟩
          · cases he
          · obtain ⟨g, hg, hcap⟩ := ih (i + 1) t fid cap he
            exact ⟨g, by simp [hg], hcap⟩
        · rw [if_neg hfi] at he
          simp only [List.mem_cons] at he
          rcases he with he | he | he
          · exact ⟨f, by simp, by cases he; rfl⟩
          · cases he
          · obtain ⟨g, hg, hcap⟩ := ih (i + 1) t fid cap he
            exact ⟨g, by simp [hg], hcap⟩
      · rw [if_neg hf] at he
        simp only [List.mem_cons] at he
        rcases he with he | he
        · cases he
        · obtain ⟨g, hg, hcap⟩ := ih (i + 1) t fid cap he
          exact ⟨g, by simp [hg], hcap⟩

theorem send_post_message_no_file (pm : PostMessage) :
    ∀ e ∈ send_post_message pm, isFileSend e = false := by
  intro e he
  unfold send_post_message at he
  by_cases h1 : pm.message_type == "text"
  · rw [if_pos h1] at he
    simp only [List.mem_singleton] at he
    rw [he]; rfl
  · rw [if_neg h1] at he
    by_cases h2 : (pm.message_type == "photo" || pm.message_type == "video"
        || pm.message_type == "document") = true
    · rw [if_pos h2] at he
      simp only [List.mem_singleton] at he
      rw [he]; rfl
    · rw [if_neg h2] at he
      cases he

theorem send_post_message_length (pm : PostMessage) :
    (send_post_message pm).length ≤ 1 := by
  unfold send_post_message
  by_cases h1 : pm.message_type == "text"
  · rw [if_pos h1]; simp
  · rw [if_neg h1]
    by_cases h2 : (pm.message_type == "photo" || pm.message_type == "video"
        || pm.message_type == "document") = true
    · rw [if_pos h2]; simp
    · rw [if_neg h2]; simp

/-- C2: delivery visits the category files in persisted insertion order and
invokes the post-message send at most once, after all file sends have been
attempted, for every per-item failure pattern (a failed item is skipped and
delivery continues). -/
theorem claim2_delivery_order (db : DB) (cid : String) (fails : Nat → Bool) (c : Category)
    (hc : get_category db cid = some c) (hne : c.files ≠ [])
    (hk : ∀ f ∈ db.files, knownType f.file_type = true) :
    (send_category_files fails (some c)).filter isFileSend
      = (db.files.filter (fun f => f.category_id == cid)).map
          (fun f => Event.sendFile f.file_type f.file_id (strTake f.caption 1024))
    ∧ (send_category_files fails (some c)).countP isPostSend ≤ 1
    ∧ ∃ a b, send_category_files fails (some c) = a ++ b
        ∧ (∀ e ∈ a, isPostSend e = false) ∧ (∀ e ∈ b, isFileSend e = false) := by
  have hfiles : c.files = (db.files.filter (fun f => f.category_id == cid)).map
      (fun f => { file_id := f.file_id, file_type := f.file_type, caption := f.caption }) := by
    unfold get_category at hc
    cases hfind : db.categories.find? (fun cr => cr.id == cid) with
    | none => rw [hfind] at hc; cases hc
    | some cr =>
        rw [hfind] at hc
        cases hc
        rfl
  have hkc : ∀ f ∈ c.files, knownType f.file_type = true := by
    intro f hf
    rw [hfiles] at hf
    simp only [List.mem_map] at hf
    obtain ⟨g, hg, hfg⟩ := hf
    rw [List.mem_filter] at hg
    cases hfg
    exact hk g hg.1
  have hie : c.files.isEmpty = false := by
    cases hcf : c.files with
    | nil => exact absurd hcf hne
    | cons a l => rfl
  have htr : send_category_files fails (some c)
      = Event.header :: (deliverLoop fails 0 c.files ++
          (match c.post_message with
           | some pm => send_post_message pm
           | none => [])) := by
    simp [send_category_files, hie]
  have hpostFilter : (match c.post_message with
      | some pm => send_post_message pm
      | none => ([] : List Event)).filter isFileSend = [] := by
    cases c.post_message with
    | none => rfl
    | some pm =>
        rw [List.filter_eq_nil_iff]
        intro e he
        rw [Bool.not_eq_true]
        exact send_post_message_no_file pm e he
  refine ⟨?_, ?_, ?_⟩
  · rw [htr]
    rw [List.filter_cons_of_neg (by decide)]
    rw [List.filter_append, deliverLoop_filter_fileSend fails c.files 0 hkc, hpostFilter,
      List.append_nil, hfiles, List.map_map]
    rfl
  · rw [htr]
    rw [List.countP_cons, List.countP_append]
    have h0 : (deliverLoop fails 0 c.files).countP isPostSend = 0 := by
      rw [List.countP_eq_zero]
      intro e he
      rw [Bool.not_eq_true]
      exact deliverLoop_no_post fails c.files 0 e he
    have h1 : (match c.post_message with
        | some pm => send_post_message pm
        | none => ([] : List Event)).countP isPostSend ≤ 1 := by
      refine le_trans (List.countP_le_length _) ?_
      cases c.post_message with
      | none => simp
      | some pm => exact send_post_message_length pm
    have hh : (if isPostSend Event.header then 1 else 0) = 0 := by decide
    omega
  · refine ⟨Event.header :: deliverLoop fails 0 c.files,
      (match c.post_message with
       | some pm => send_post_message pm
       | none => ([] : List Event)), by rw [htr]; rfl, ?_, ?_⟩
    · intro e he
      simp only [List.mem_cons] at he
      rcases he with he | he
      · rw [he]; rfl
      · exact deliverLoop_no_post fails c.files 0 e he
    · intro e he
      cases hp : c.post_message with
      | none => rw [hp] at he; cases he
      | some pm => rw [hp] at he; exact send_post_message_no_file pm e he

/-- Witness for C2: the one-file store dbW with a failing first send still
produces exactly the file send of its single row. -/
theorem claim2_delivery_order_witness :
    (send_category_files (fun _ => true) (some catW)).filter isFileSend
      = (dbW.files.filter (fun f => f.category_id == "c1")).map
          (fun f => Event.sendFile f.file_type f.file_id (strTake f.caption 1024)) :=
  (claim2_delivery_order dbW "c1" (fun _ => true) catW (by decide) (by decide)
    (by intro f hf; fin_cases hf; rfl)).1

/-- C9: when the referenced category does not exist, or exists with zero
files, delivery produces only the not-found notice: no file send and no
post-message send happens. -/
theorem claim9_empty_category (fails : Nat → Bool) (cat : Option Category)
    (h : cat = none ∨ ∃ c, cat = some c ∧ c.files = []) :
    send_category_files fails cat = [Event.notice]
    ∧ ∀ e ∈ send_category_files fails cat, isFileSend e = false ∧ isPostSend e = false := by
  have htr : send_category_files fails cat = [Event.notice] := by
    rcases h with h | ⟨c, hcat, hcf⟩
    · rw [h]; rfl
    · rw [hcat]
      simp [send_category_files, hcf]
  refine ⟨htr, ?_⟩
  rw [htr]
  intro e he
  simp only [List.mem_singleton] at he
  rw [he]
  exact ⟨rfl, rfl⟩

/-- Witness for C9: a missing category produces only the notice. -/
theorem claim9_empty_category_witness :
    send_category_files (fun _ => false) none = [Event.notice] :=
  (claim9_empty_category (fun _ => false) none (Or.inl rfl)).1

/-- C7 counterexample: the claim says every outbound caption of the
delivery pipeline is capped at 1024 characters, but the post-delivery
message send receives the stored caption unmodified: with a 1025-character
stored caption, the caption actually passed to the send capability has 1025
characters. -/
theorem claim7_caption_counterexample :
    (send_category_files (fun _ => false) (some catLong)).filter isPostSend
      = [Event.sendMedia "photo" "photoref" longCaption]
    ∧ 1024 < longCaption.length := by
  constructor
  · rfl
  · show 1024 < (List.replicate 1025 'a').length
    rw [List.length_replicate]
    omega

/-- C7 amended: every per-file send receives a caption truncated to at most
1024 characters, while the post-delivery media message passes its stored
caption to the send capability unmodified. -/
theorem claim7_caption_amended :
    (∀ (fails : Nat → Bool) (cat : Option Category) (t fid cap : String),
        Event.sendFile t fid cap ∈ send_category_files fails cat → cap.length ≤ 1024)
    ∧ (∀ (fails : Nat → Bool) (c : Category) (pm : PostMessage),
        c.post_message = some pm → c.files ≠ [] →
        (pm.message_type = "photo" ∨ pm.message_type = "video" ∨ pm.message_type = "document") →
        Event.sendMedia pm.message_type pm.content pm.caption
          ∈ send_category_files fails (some c)) := by
  constructor
  · intro fails cat t fid cap hmem
    cases cat with
    | none =>
        simp only [send_category_files, List.mem_singleton] at hmem
        cases hmem
    | some c =>
        simp only [send_category_files] at hmem
        by_cases hie : c.files.isEmpty = true
        · rw [if_pos hie] at hmem
          simp only [List.mem_singleton] at hmem
          cases hmem
        · rw [if_neg hie] at hmem
          simp only [List.mem_cons, List.mem_append] at hmem
          rcases hmem with hmem | hmem | hmem
          · cases hmem
          · obtain ⟨f, _, hcap⟩ := deliverLoop_caption fails c.files 0 t fid cap hmem
            rw [hcap]
            exact strTake_length_le f.caption 1024
          · have := send_post_message_no_file
            cases hp : c.post_message with
            | none => rw [hp] at hmem; cases hmem
            | some pm =>
                rw [hp] at hmem
                have hff := send_post_message_no_file pm _ hmem
                cases hff
  · intro fails c pm hpm hne hm
    have hie : c.files.isEmpty = false := by
      cases hcf : c.files with
      | nil => exact absurd hcf hne
      | cons a l => rfl
    simp only [send_category_files]
    rw [if_neg (by rw [hie]; exact Bool.false_ne_true)]
    rw [hpm]
    have hsp : send_post_message pm
        = [Event.sendMedia pm.message_type pm.content pm.caption] := by
      unfold send_post_message
      rcases hm with hm | hm | hm <;>
        rw [hm] <;> rfl
    simp [hsp]

/-- Witness for C7 amended: the long-caption post message of catLong is
passed through unmodified. -/
theorem claim7_caption_amended_witness :
    Event.sendMedia "photo" "photoref" longCaption
      ∈ send_category_files (fun _ => false) (some catLong) :=
  claim7_caption_amended.2 (fun _ => false) catLong pmLong rfl (by decide) (Or.inl rfl)




theorem fileExists_iff (files : List FileRow) (x : String) :
    fileExists files x = true ↔ x ∈ files.map (fun r => r.file_id) := by
  unfold fileExists
  rw [List.any_eq_true]
  constructor
  · rintro ⟨r, hr, hbeq⟩
    rw [List.mem_map]
    exact ⟨r, hr, by rw [← beq_iff_eq]; exact hbeq⟩
  · intro hx
    rw [List.mem_map] at hx
    obtain ⟨r, hr, hrx⟩ := hx
    exact ⟨r, hr, by rw [beq_iff_eq]; exact hrx⟩

theorem fileExists_append_row (files : List FileRow) (cid : String) (f : FileInfo) (x : String) :
    fileExists (files ++ [toRow cid f]) x = (fileExists files x || (f.file_id == x)) := by
  simp [fileExists, List.any_append, toRow]

theorem add_files_length (cid : String) :
    ∀ (batch : List FileInfo) (files : List FileRow),
      (add_files files cid batch).1.length = files.length + (add_files files cid batch).2 := by
  intro batch
  induction batch with
  | nil => intro files; simp [add_files]
  | cons f rest ih =>
      intro files
      cases hf : fileExists files f.file_id with
      | true =>
          simp only [add_files, add_file, hf, if_true, Bool.false_eq_true, if_false]
          have := ih files
          simp only [this]
          omega
      | false =>
          simp only [add_files, add_file, hf, Bool.false_eq_true, if_false]
          have := ih (files ++ [toRow cid f])
          simp only [this, List.length_append, List.length_singleton, if_true]
          omega

theorem add_files_nodup (cid : String) :
    ∀ (batch : List FileInfo) (files : List FileRow),
      (files.map (fun r => r.file_id)).Nodup →
      ((add_files files cid batch).1.map (fun r => r.file_id)).Nodup := by
  intro batch
  induction batch with
  | nil => intro files h; exact h
  | cons f rest ih =>
      intro files h
      cases hf : fileExists files f.file_id with
      | true =>
          simp only [add_files, add_file, hf, if_true]
          exact ih files h
      | false =>
          simp only [add_files, add_file, hf, Bool.false_eq_true, if_false]
          refine ih (files ++ [toRow cid f]) ?_
          rw [List.map_append, List.nodup_append]
          refine ⟨h, List.nodup_singleton _, ?_⟩
          intro x hx hx1
          simp only [List.map_cons, List.map_nil, List.mem_singleton, toRow] at hx1
          rw [hx1] at hx
          have := (fileExists_iff files f.file_id).2 hx
          rw [hf] at this
          cases this

theorem add_files_count (cid : String) :
    ∀ (batch : List FileInfo) (files : List FileRow),
      (add_files files cid batch).2
        = ((batch.map (fun f => f.file_id)).filter
            (fun x => !(fileExists files x))).toFinset.card := by
  intro batch
  induction batch with
  | nil => intro files; simp [add_files]
  | cons f rest ih =>
      intro files
      cases hf : fileExists files f.file_id with
      | true =>
          simp only [add_files, add_file, hf, if_true, List.map_cons]
          rw [List.filter_cons_of_neg (by rw [hf]; decide)]
          simpa using ih files
      | false =>
          simp only [add_files, add_file, hf, Bool.false_eq_true, if_false, if_true,
            List.map_cons]
          rw [List.filter_cons_of_pos (by rw [hf]; decide)]
          rw [List.toFinset_cons]
          have hS : ((rest.map (fun f => f.file_id)).filter
                (fun x => !(fileExists (files ++ [toRow cid f]) x))).toFinset
              = ((rest.map (fun f => f.file_id)).filter
                (fun x => !(fileExists files x))).toFinset.erase f.file_id := by
            apply Finset.ext
            intro x
            simp only [List.mem_toFinset, List.mem_filter, Finset.mem_erase,
              fileExists_append_row, Bool.not_or, Bool.and_eq_true, Bool.not_eq_true',
              beq_eq_false_iff_ne, ne_eq]
            constructor
            · rintro ⟨hm, hnf, hfx⟩
              exact ⟨fun hx => hfx (by rw [hx]), hm, hnf⟩
            · rintro ⟨hx, hm, hnf⟩
              exact ⟨hm, hnf, fun hfe => hx hfe.symm⟩
          rw [ih (files ++ [toRow cid f]), hS]
          by_cases hmem : f.file_id ∈ ((rest.map (fun f => f.file_id)).filter
              (fun x => !(fileExists files x))).toFinset
          · rw [Finset.insert_eq_self.2 hmem]
            have := Finset.card_erase_add_one hmem
            omega
          · rw [Finset.card_insert_of_not_mem hmem, Finset.erase_eq_of_not_mem hmem]

theorem add_files_prefix (cid : String) :
    ∀ (batch : List FileInfo) (files : List FileRow),
      ∃ newRows, (add_files files cid batch).1 = files ++ newRows
        ∧ ∀ r ∈ newRows, fileExists files r.file_id = false := by
  intro batch
  induction batch with
  | nil =>
      intro files
      exact ⟨[], by simp [add_files], by intro r hr; cases hr⟩
  | cons f rest ih =>
      intro files
      cases hf : fileExists files f.file_id with
      | true =>
          simp only [add_files, add_file, hf, if_true]
          exact ih files
      | false =>
          simp only [add_files, add_file, hf, Bool.false_eq_true, if_false]
          obtain ⟨nr, h1, h2⟩ := ih (files ++ [toRow cid f])
          refine ⟨toRow cid f :: nr, ?_, ?_⟩
          · rw [h1, List.append_assoc]
            rfl
          · intro r hr
            simp only [List.mem_cons] at hr
            rcases hr with hr | hr
            · rw [hr]
              exact hf
            · have := h2 r hr
              rw [fileExists_append_row] at this
              exact (Bool.or_eq_false_iff.1 this).1

/-- C3: finishing a nonempty upload batch persists it through add_files;
the stored file references stay duplicate-free, the reported count equals
the number of rows actually inserted, and that count is exactly the number
of distinct batch references not already persisted, so every skipped
duplicate is excluded from it. -/
theorem claim3_upload_idempotent (dbf : List FileRow) (u : Upload)
    (hnd : (dbf.map (fun r => r.file_id)).Nodup) (hne : u.files ≠ []) :
    finish_upload dbf (some u)
        = ((add_files dbf u.category_id u.files).1, some (add_files dbf u.category_id u.files).2)
    ∧ ((add_files dbf u.category_id u.files).1.map (fun r => r.file_id)).Nodup
    ∧ (add_files dbf u.category_id u.files).1.length
        = dbf.length + (add_files dbf u.category_id u.files).2
    ∧ (add_files dbf u.category_id u.files).2
        = ((u.files.map (fun f => f.file_id)).filter
            (fun x => !(fileExists dbf x))).toFinset.card := by
  have hie : u.files.isEmpty = false := by
    cases hcf : u.files with
    | nil => exact absurd hcf hne
    | cons a l => rfl
  refine ⟨?_, add_files_nodup u.category_id u.files dbf hnd,
    add_files_length u.category_id u.files dbf, add_files_count u.category_id u.files dbf⟩
  simp [finish_upload, hie]

/-- Witness for C3: a batch holding the same file reference twice over an
empty store reports a count that excludes the in-batch duplicate. -/
theorem claim3_upload_idempotent_witness :
    (add_files ([] : List FileRow) upDup.category_id upDup.files).2
      = ((upDup.files.map (fun f => f.file_id)).filter
          (fun x => !(fileExists ([] : List FileRow) x))).toFinset.card :=
  (claim3_upload_idempotent [] upDup (by decide) (by decide)).2.2.2

/-- C10: re-adding an already persisted external file reference, alone or
inside a batch, under any category id and any metadata, inserts nothing and
leaves every pre-existing row entirely unchanged: the store is only ever
extended at the end with rows whose references were fresh. -/
theorem claim10_reupload_frame (dbf : List FileRow) (cid : String) (f : FileInfo)
    (batch : List FileInfo) :
    (fileExists dbf f.file_id = true → add_file dbf cid f = (dbf, false))
    ∧ ∃ newRows, (add_files dbf cid batch).1 = dbf ++ newRows
        ∧ ∀ r ∈ newRows, fileExists dbf r.file_id = false := by
  refine ⟨?_, add_files_prefix cid batch dbf⟩
  intro h
  simp [add_file, h]

/-- Witness for C10: re-adding the stored reference f1 under a different
category, name, size, type and caption changes nothing. -/
theorem claim10_reupload_frame_witness :
    add_file [rowV] "c2" fNew = ([rowV], false) :=
  (claim10_reupload_frame [rowV] "c2" fNew []).1 (by decide)


theorem find?_cons_pos (p : AdminRow → Bool) (a : AdminRow) (l : List AdminRow)
    (h : p a = true) : (a :: l).find? p = some a := by
  simp [List.find?, h]

theorem find?_cons_neg (p : AdminRow → Bool) (a : AdminRow) (l : List AdminRow)
    (h : p a = false) : (a :: l).find? p = l.find? p := by
  simp [List.find?, h]

theorem find_map_update_self (uid : Int) (sup : Bool) :
    ∀ db : List AdminRow, db.any (fun r => r.user_id == uid) = true →
      ((db.map (fun r => if r.user_id == uid then { r with is_super := sup } else r)).find?
          (fun r => r.user_id == uid)).map (fun r => r.is_super) = some sup := by
  intro db
  induction db with
  | nil => intro h; cases h
  | cons r db ih =>
      intro h
      simp only [List.map_cons]
      by_cases hr : (r.user_id == uid) = true
      · rw [if_pos hr]
        rw [find?_cons_pos (fun r => r.user_id == uid)
          (AdminRow.mk r.user_id sup r.added_by) _ hr]
        rfl
      · have hrf : (r.user_id == uid) = false := by
          cases hc : (r.user_id == uid)
          · rfl
          · exact absurd hc hr
        rw [if_neg hr]
        rw [find?_cons_neg (fun r => r.user_id == uid) _ _ hrf]
        refine ih ?_
        simp only [List.any_cons, Bool.or_eq_true] at h
        rcases h with h | h
        · exact absurd h hr
        · exact h

theorem find_map_update_other (u uid : Int) (sup : Bool) (hne : u ≠ uid) :
    ∀ db : List AdminRow,
      ((db.map (fun r => if r.user_id == u then { r with is_super := sup } else r)).find?
          (fun r => r.user_id == uid)).map (fun r => r.is_super)
        = (db.find? (fun r => r.user_id == uid)).map (fun r => r.is_super) := by
  intro db
  induction db with
  | nil => rfl
  | cons r db ih =>
      simp only [List.map_cons]
      by_cases hru : (r.user_id == u) = true
      · rw [if_pos hru]
        have hrid : r.user_id = u := by rwa [beq_iff_eq] at hru
        have hnuid : (r.user_id == uid) = false := by
          rw [beq_eq_false_iff_ne, hrid]
          exact hne
        rw [find?_cons_neg (fun r => r.user_id == uid)
          (AdminRow.mk r.user_id sup r.added_by) _ hnuid,
          find?_cons_neg (fun r => r.user_id == uid) r db hnuid]
        exact ih
      · rw [if_neg hru]
        by_cases hrid : (r.user_id == uid) = true
        · rw [find?_cons_pos (fun r => r.user_id == uid) _ _ hrid,
            find?_cons_pos (fun r => r.user_id == uid) _ _ hrid]
        · have hrf : (r.user_id == uid) = false := by
            cases hc : (r.user_id == uid)
            · rfl
            · exact absurd hc hrid
          rw [find?_cons_neg (fun r => r.user_id == uid) _ _ hrf,
            find?_cons_neg (fun r => r.user_id == uid) _ _ hrf]
          exact ih

theorem find?_append_none (p : AdminRow → Bool) (l2 : List AdminRow) :
    ∀ l1 : List AdminRow, l1.find? p = none → (l1 ++ l2).find? p = l2.find? p := by
  intro l1
  induction l1 with
  | nil => intro _; rfl
  | cons a l ih =>
      intro h
      by_cases ha : p a = true
      · rw [find?_cons_pos p a l ha] at h
        cases h
      · have haf : p a = false := by
          cases hc : p a
          · rfl
          · exact absurd hc ha
        rw [find?_cons_neg p a l haf] at h
        rw [List.cons_append, find?_cons_neg p a (l ++ l2) haf]
        exact ih h

theorem find?_append_some (p : AdminRow → Bool) (l2 : List AdminRow) (r : AdminRow) :
    ∀ l1 : List AdminRow, l1.find? p = some r → (l1 ++ l2).find? p = some r := by
  intro l1
  induction l1 with
  | nil => intro h; cases h
  | cons a l ih =>
      intro h
      by_cases ha : p a = true
      · rw [find?_cons_pos p a l ha] at h
        rw [List.cons_append, find?_cons_pos p a (l ++ l2) ha]
        exact h
      · have haf : p a = false := by
          cases hc : p a
          · rfl
          · exact absurd hc ha
        rw [find?_cons_neg p a l haf] at h
        rw [List.cons_append, find?_cons_neg p a (l ++ l2) haf]
        exact ih h

theorem find_add_admin_self (db : List AdminRow) (uid : Int) (sup : Bool) (b : Int) :
    ((add_admin db uid sup b).find? (fun r => r.user_id == uid)).map (fun r => r.is_super)
      = some sup := by
  unfold add_admin
  by_cases hA : db.any (fun r => r.user_id == uid) = true
  · rw [if_pos hA]
    exact find_map_update_self uid sup db hA
  · rw [if_neg hA]
    have hnone : db.find? (fun r => r.user_id == uid) = none := by
      rw [List.find?_eq_none]
      intro r hr hp
      exact hA (List.any_eq_true.2 ⟨r, hr, hp⟩)
    rw [find?_append_none (fun r => r.user_id == uid) _ db hnone]
    rw [find?_cons_pos (fun r => r.user_id == uid) (AdminRow.mk uid sup b) [] (by simp)]
    rfl

theorem find_add_admin_other (db : List AdminRow) (u uid : Int) (sup : Bool) (b : Int)
    (hne : u ≠ uid) :
    ((add_admin db u sup b).find? (fun r => r.user_id == uid)).map (fun r => r.is_super)
      = (db.find? (fun r => r.user_id == uid)).map (fun r => r.is_super) := by
  unfold add_admin
  by_cases hA : db.any (fun r => r.user_id == u) = true
  · rw [if_pos hA]
    exact find_map_update_other u uid sup hne db
  · rw [if_neg hA]
    cases hfind : db.find? (fun r => r.user_id == uid) with
    | some r =>
        rw [find?_append_some (fun r => r.user_id == uid) _ r db hfind]
    | none =>
        rw [find?_append_none (fun r => r.user_id == uid) _ db hfind]
        rw [find?_cons_neg (fun r => r.user_id == uid) (AdminRow.mk u sup b) []
          (by rw [beq_eq_false_iff_ne]; exact hne)]
        rfl

theorem seed_admins_preserve (uid : Int) :
    ∀ (ids : List Int) (db : List AdminRow), uid ∉ ids →
      ((seed_admins db ids).find? (fun r => r.user_id == uid)).map (fun r => r.is_super)
        = (db.find? (fun r => r.user_id == uid)).map (fun r => r.is_super) := by
  intro ids
  induction ids with
  | nil => intro db _; rfl
  | cons i rest ih =>
      intro db h
      simp only [List.mem_cons, not_or] at h
      show ((seed_admins (add_admin db i true 0) rest).find?
          (fun r => r.user_id == uid)).map (fun r => r.is_super) = _
      rw [ih (add_admin db i true 0) h.2]
      exact find_add_admin_other db i uid true 0 (fun he => h.1 he.symm)

theorem seed_admins_super (uid : Int) :
    ∀ (ids : List Int) (db : List AdminRow), uid ∈ ids →
      ((seed_admins db ids).find? (fun r => r.user_id == uid)).map (fun r => r.is_super)
        = some true := by
  intro ids
  induction ids with
  | nil => intro db h; cases h
  | cons i rest ih =>
      intro db h
      show ((seed_admins (add_admin db i true 0) rest).find?
          (fun r => r.user_id == uid)).map (fun r => r.is_super) = some true
      by_cases hmem : uid ∈ rest
      · exact ih (add_admin db i true 0) hmem
      · have huid : uid = i := by
          simp only [List.mem_cons] at h
          rcases h with h | h
          · exact h
          · exact absurd h hmem
        rw [seed_admins_preserve uid rest (add_admin db i true 0) hmem, huid]
        exact find_add_admin_self db i true 0

/-- C5 counterexample: promoting the already-super admin 7 with is-super
false lowers the flag, contradicting the claim that promote never lowers a
super admin flag. -/
theorem claim5_counterexample :
    add_admin [{ user_id := 7, is_super := true, added_by := 0 }] 7 false 1
      = [{ user_id := 7, is_super := false, added_by := 0 }]
    ∧ ((add_admin [{ user_id := 7, is_super := true, added_by := 0 }] 7 false 1).find?
        (fun r => r.user_id == 7)).map (fun r => r.is_super) = some false := by
  refine ⟨by decide, by decide⟩

/-- C5 amended: promote upserts an AdminUser row whose is-super flag equals
the value passed, overwriting any existing flag (so promoting an existing
super admin with is-super false lowers it); demote deletes the row only if
it is not super, so super admins cannot be removed by demote; seed admins
are upserted at startup with is-super true. -/
theorem claim5_admin_amended (db : List AdminRow) (uid : Int) (sup : Bool) (b : Int)
    (ids : List Int) :
    (((add_admin db uid sup b).find? (fun r => r.user_id == uid)).map (fun r => r.is_super)
        = some sup)
    ∧ (∀ r ∈ db, r.is_super = true → r ∈ remove_admin db uid)
    ∧ (∀ r ∈ db, r.user_id = uid → r.is_super = false → r ∉ remove_admin db uid)
    ∧ (∀ r ∈ remove_admin db uid, r ∈ db)
    ∧ (∀ v ∈ ids, ((seed_admins db ids).find? (fun r => r.user_id == v)).map
        (fun r => r.is_super) = some true) := by
  refine ⟨find_add_admin_self db uid sup b, ?_, ?_, ?_, ?_⟩
  · intro r hr hsup
    rw [remove_admin, List.mem_filter]
    refine ⟨hr, ?_⟩
    simp [hsup]
  · intro r hr hrid hsup hmem
    rw [remove_admin, List.mem_filter] at hmem
    have := hmem.2
    simp [hrid, hsup] at this
  · intro r hr
    rw [remove_admin, List.mem_filter] at hr
    exact hr.1
  · intro v hv
    exact seed_admins_super v ids db hv

/-- Witness for C5 amended: a seeded super admin is recorded as super, and
demoting the sole non-super admin removes the row. -/
theorem claim5_admin_amended_witness :
    ((seed_admins [] [5]).find? (fun r => r.user_id == 5)).map (fun r => r.is_super)
      = some true :=
  (claim5_admin_amended [] 0 false 0 [5]).2.2.2.2 5 (by decide)

/-- C8: the source intends the delete selection at the kind-selection step
to delete the post message and end the conversation, and its dead branch
and the out-of-conversation button handler implement exactly that deletion;
but the branch guard compares the callback data against the bare string
delpost while the delete button carries delpost_ followed by the category
id, so inside the flow the selection leaves the post message stored, stores
the category id as the draft type, and moves to AWAITING_POST_MESSAGE,
prompting for content instead of ending. -/
theorem claim8_delete_dead_branch :
    handle_post_message_type
        { emptyUserData with post_message := some { category_id := "a1b2c3d4", ptype := none } }
        [{ category_id := "a1b2c3d4", message_type := "text", content := "bye", caption := "" }]
        "delpost_a1b2c3d4"
      = ({ emptyUserData with
            post_message := some { category_id := "a1b2c3d4", ptype := some "a1b2c3d4" } },
         [{ category_id := "a1b2c3d4", message_type := "text", content := "bye", caption := "" }],
         AWAITING_POST_MESSAGE)
    ∧ AWAITING_POST_MESSAGE ≠ CONV_END
    ∧ button_delpost
        [{ category_id := "a1b2c3d4", message_type := "text", content := "bye", caption := "" }]
        "delpost_a1b2c3d4" = [] := by
  refine ⟨by decide, by decide, by decide⟩

end BotCore
